import Mathlib

/-!
Verification of the IRC client core (irc.go and the TUI handler file).

The Go code is shallowly embedded: pure string manipulation becomes Lean
functions on `String` and `List String`; the connection state becomes an
explicit `Conn` record; side effects (writes, flushes, debug callbacks,
goroutine spawns, channel closes) become an explicit trace of `Act`ions.
Go `map[string][]T` values are embedded as association functions or as
append-ordered lists of pairs, as noted at each definition.
-/

namespace Irc

/-- One parsed IRC message, mirroring `type Line struct` in irc.go
(fields Nick, Src, Cmd, Args). -/
structure Line where
  Nick : String
  Src : String
  Cmd : String
  Args : List String
deriving DecidableEq

/-- Embedding of Go `strings.Split(s, " ")` at the character level:
split at every space, keeping empty fields. Never returns `[]`. -/
def splitChars : List Char → List (List Char)
  | [] => [[]]
  | c :: cs =>
    if c = ' ' then [] :: splitChars cs
    else
      match splitChars cs with
      | [] => [[c]]
      | t :: ts => (c :: t) :: ts

/-- Go `strings.Split(s, " ")` (the space separator is ASCII, so the
byte-level Go split agrees with this character-level split on UTF-8). -/
def splitSp (s : String) : List String :=
  (splitChars s.toList).map (fun l => String.mk l)

/-- Go `strings.Join(l, " ")`. -/
def joinSp : List String → String
  | [] => ""
  | [x] => x
  | x :: xs => x ++ " " ++ joinSp xs

/-- Whether the first character of `s` is `c`; for ASCII `c` this is
Go `strings.HasPrefix(s, string(c))`. -/
def strStarts (s : String) (c : Char) : Bool :=
  match s.toList with
  | [] => false
  | d :: _ => d = c

/-- Go `s[1:]` on a string whose first byte is ASCII: drop one character. -/
def strDrop1 (s : String) : String :=
  String.mk s.toList.tail

/-- Go `strings.ToUpper` restricted to the ASCII case mapping (IRC
commands are ASCII, so the two agree on every input the client sees). -/
def upperStr (s : String) : String :=
  String.mk (s.toList.map Char.toUpper)

/-- The nick extraction of parseLine (irc.go lines 184-186): Go
`if idx := strings.Index(src, "!"); idx != -1 { nick = src[:idx] }`,
with the nick left empty when no `!` occurs. -/
def nickOf (src : String) : String :=
  if '!' ∈ src.toList then String.mk (src.toList.takeWhile (fun c => c ≠ '!')) else ""

/-- Go `strings.SplitN(s, " ", 2)`: either `[s]` (no space) or the part
before the first space followed by the whole rest. -/
def goSplitN2 (s : String) : List String :=
  match splitSp s with
  | [] => [s]
  | [x] => [x]
  | x :: rest => [x, joinSp rest]

/-- The argument loop of parseLine (irc.go lines 201-208): parameters are
appended left to right; a parameter starting with `:` makes the joined
rest, minus its first byte, the single final argument. -/
def parseArgs : List String → List String
  | [] => []
  | p :: ps =>
    if strStarts p ':' then [strDrop1 (joinSp (p :: ps))]
    else p :: parseArgs ps

/-- The command/parameter phase of parseLine (irc.go lines 192-208):
split the remainder on spaces, uppercase the first token as the command,
run the argument loop on the rest. -/
def parseCmdArgs (l : Line) (raw : String) : Line :=
  match splitSp raw with
  | [] => l
  | cmd :: rest => { l with Cmd := upperStr cmd, Args := parseArgs rest }

/-- Embedding of `parseLine` (irc.go lines 172-211). A leading `:` marks
a prefix: it is split from the rest at the first space (returning the
all-empty Line when there is no space), the prefix becomes Src and its
part before `!` becomes Nick; then command/parameter parsing runs on the
remainder. -/
def parseLine (raw : String) : Line :=
  if strStarts raw ':' then
    match goSplitN2 (strDrop1 raw) with
    | [src, rest] =>
      parseCmdArgs { Nick := nickOf src, Src := src, Cmd := "", Args := [] } rest
    | _ => { Nick := "", Src := "", Cmd := "", Args := [] }
  else
    parseCmdArgs { Nick := "", Src := "", Cmd := "", Args := [] } raw

/-- One observable side effect of the connection code. `debug` is a call
of the installed debugSendFn, `write`/`flush` are the buffered writer
operations, `logStderr` an fmt.Fprintf to stderr, `spawn h` the
`go handler(...)` launch of the handler with identity `h`,
`setConnected b` a write of the connected flag, and the `close*` actions
are `close(c.done)`, `close(c.quit)` and `c.conn.Close()`. -/
inductive Act where
  | debug (cmd : String)
  | write (bytes : String)
  | flush
  | logStderr (msg : String)
  | spawn (h : Nat)
  | setConnected (b : Bool)
  | closeDone
  | closeQuit
  | closeConn
deriving DecidableEq

/-- State of one `Conn` (irc.go lines 55-66) together with the
environment choices that drive its transport. `registry` embeds the
`handlers map[string][]func` as the append-ordered list of
(event, handler identity) registrations, `quitClosed`/`doneClosed`
record whether the `quit`/`done` channels are closed, `connPresent`
models `c.conn != nil`, `connClosed` that `c.conn.Close()` ran,
`debugSet` that a debugSendFn is installed, and `writeErr`/`flushErr`
are the errors the buffered writer's WriteString/Flush would return. -/
structure Conn where
  connected : Bool
  quitClosed : Bool
  doneClosed : Bool
  connPresent : Bool
  connClosed : Bool
  debugSet : Bool
  writeErr : Option String
  flushErr : Option String
  registry : List (String × Nat)
deriving DecidableEq

/-- The CRLF terminator appended by sendRaw. -/
def crlf : String := "\r\n"

/-- `HandleFunc` (irc.go lines 79-83): append one handler under an event
tag. -/
def HandleFunc (c : Conn) (event : String) (h : Nat) : Conn :=
  { c with registry := c.registry ++ [(event, h)] }

/-- The handlers a dispatch reads for one tag: `c.handlers[event]`, in
registration order. -/
def handlersFor (reg : List (String × Nat)) (tag : String) : List Nat :=
  (reg.filter (fun p => p.1 == tag)).map (fun p => p.2)

/-- `sendRaw` (irc.go lines 250-268): error "not connected" and no I/O
when the connected flag is down; otherwise the debug callback (if
installed), then WriteString of the CRLF-terminated command — returning
its error without flushing when it fails — then Flush, returning its
error. The returned pair is (error, trace of effects). -/
def sendRaw (c : Conn) (cmd : String) : Option String × List Act :=
  if c.connected = false then (some "not connected", [])
  else
    let dbg := if c.debugSet then [Act.debug cmd] else []
    match c.writeErr with
    | some e => (some e, dbg)
    | none =>
      match c.flushErr with
      | some e => (some e, dbg ++ [Act.write (cmd ++ crlf)])
      | none => (none, dbg ++ [Act.write (cmd ++ crlf), Act.flush])

/-- The PONG command dispatch builds (irc.go lines 217-223):
`PONG :<arg0>` when the line has arguments, bare `PONG` otherwise. -/
def pongCmdOf (l : Line) : String :=
  match l.Args with
  | [] => "PONG"
  | a :: _ => "PONG :" ++ a

/-- The PING branch of dispatch (irc.go lines 216-229): the synchronous
sendRaw of the PONG reply, with a stderr log appended when it fails. -/
def pongActs (c : Conn) (l : Line) : List Act :=
  match sendRaw c (pongCmdOf l) with
  | (some e, tr) => tr ++ [Act.logStderr ("Failed to send PONG: " ++ e)]
  | (none, tr) => tr

/-- `dispatch` (irc.go lines 214-247) as the ordered trace of its
effects: for a PING event, first the PONG reply attempt; then the spawn
of every handler registered under the event, then of every handler
registered under `"*"`. -/
def dispatch (c : Conn) (event : String) (l : Line) : List Act :=
  (if event == "PING" then pongActs c l else [])
    ++ (handlersFor c.registry event).map Act.spawn
    ++ (handlersFor c.registry "*").map Act.spawn

/-- `Raw` (irc.go lines 271-273): calls sendRaw and discards its error;
the Go method has no return value, so its only output is the effect
trace. -/
def Raw (c : Conn) (cmd : String) : List Act :=
  (sendRaw c cmd).2

/-- `Join` (irc.go lines 276-278): like Raw, no return value. -/
def Join (c : Conn) (channel : String) : List Act :=
  (sendRaw c ("JOIN " ++ channel)).2

/-- `Part` (irc.go lines 281-283): like Raw, no return value. -/
def Part (c : Conn) (channel : String) : List Act :=
  (sendRaw c ("PART " ++ channel)).2

/-- `Privmsg` (irc.go lines 286-288): like Raw, no return value. -/
def Privmsg (c : Conn) (target message : String) : List Act :=
  (sendRaw c ("PRIVMSG " ++ target ++ " :" ++ message)).2

/-- A Go runtime panic reachable from this code. -/
inductive GoPanic where
  | closeOfClosedChannel
deriving DecidableEq

/-- The wire command Quit builds (irc.go lines 292-296). -/
def quitCmd (message : String) : String :=
  if message == "" then "QUIT" else "QUIT :" ++ message

/-- The select on `c.done` versus the 2-second timer (irc.go lines
301-304). A Go select with a timer arm always completes; `doneObserved`
records which arm fired. Observing `done` closed implies the read
loop's deferred exit code already ran — it cleared the connected flag
and then closed `done` (see `exitActs`) — so that state is folded in
here. On timeout the state is untouched. -/
def quitWait (c : Conn) (doneObserved : Bool) : Conn :=
  if doneObserved then { c with connected := false, doneClosed := true } else c

/-- The Conn state after Quit returns: quit channel closed, the wait's
effect, and `c.conn.Close()` when the transport is present (irc.go
lines 298-308). -/
def quitFinal (c : Conn) (doneObserved : Bool) : Conn :=
  let c2 := quitWait { c with quitClosed := true } doneObserved
  if c2.connPresent then { c2 with connClosed := true } else c2

/-- `Quit` (irc.go lines 291-309): sendRaw of `QUIT` or `QUIT :<msg>`
with the error discarded, then `close(c.quit)` — a Go runtime panic
when the quit channel is already closed (a second Quit call) — then
the bounded wait, then the transport close. -/
def Quit (c : Conn) (message : String) (doneObserved : Bool) :
    Except GoPanic (Conn × List Act) :=
  if c.quitClosed then Except.error GoPanic.closeOfClosedChannel
  else
    Except.ok
      (quitFinal c doneObserved,
        (sendRaw c (quitCmd message)).2 ++ [Act.closeQuit]
          ++ (if c.connPresent then [Act.closeConn] else []))

/-- One iteration's outcome in the read loop (irc.go lines 142-167):
the select observed the closed quit channel; the 1-second read deadline
expired (a timeout, retried); the read failed terminally; or a full
line arrived. -/
inductive ReadEv where
  | quitObserved
  | timeout
  | readErr
  | lineOk (s : String)
deriving DecidableEq

/-- Go `strings.TrimSpace` on the ASCII whitespace characters that can
occur in an IRC line. -/
def goTrimSpace (s : String) : String :=
  let wsp := fun (c : Char) => c == ' ' || c == '\t' || c == '\n' || c == '\r'
  String.mk (((s.toList.dropWhile wsp).reverse.dropWhile wsp).reverse)

/-- The synthetic line dispatched when the read loop exits. -/
def dcLine : Line :=
  { Nick := "", Src := "", Cmd := "DISCONNECTED", Args := [] }

/-- The exit path of `readLoop` (irc.go lines 134-140): the two defers
run in LIFO order, so first the deferred function — connected flag
cleared, then the synthetic DISCONNECTED event dispatched through the
normal dispatch path (with the flag already down) — and only then
`close(c.done)`. -/
def exitActs (c : Conn) : List Act :=
  Act.setConnected false
    :: (dispatch { c with connected := false } "DISCONNECTED" dcLine ++ [Act.closeDone])

/-- `readLoop` (irc.go lines 133-169) driven by a list of iteration
outcomes: quit observation and terminal read error end the loop through
the deferred exit path; a timeout retries; a line is trimmed, skipped
when empty, and otherwise parsed and dispatched under its parsed Cmd.
The Bool records whether the loop exited within the supplied outcomes. -/
def readLoop (c : Conn) : List ReadEv → List Act × Bool
  | [] => ([], false)
  | ev :: evs =>
    match ev with
    | ReadEv.quitObserved => (exitActs c, true)
    | ReadEv.timeout => readLoop c evs
    | ReadEv.readErr => (exitActs c, true)
    | ReadEv.lineOk s =>
      let t := goTrimSpace s
      if t == "" then readLoop c evs
      else
        let pl := parseLine t
        let res := readLoop c evs
        (dispatch c pl.Cmd pl ++ res.1, res.2)

/-- The wire writes recorded in a trace. -/
def writesOf (tr : List Act) : List String :=
  tr.filterMap (fun a => match a with | Act.write s => some s | _ => none)

/-- The handler spawns recorded in a trace, in spawn order. -/
def spawnsOf (tr : List Act) : List Nat :=
  tr.filterMap (fun a => match a with | Act.spawn h => some h | _ => none)

/-- The lifecycle actions of the read loop's exit path: the connected
flag write and `close(c.done)`. -/
def isLifecycle : Act → Bool
  | Act.setConnected _ => true
  | Act.closeDone => true
  | _ => false

/-- A trace free of lifecycle actions. -/
def noLife (tr : List Act) : Bool :=
  tr.all (fun a => !(isLifecycle a))

/-- `handleNames` (TUI file lines 1592-1603), acting on the
`channelUsers map[string][]string` embedded as an association function:
the space-split users of one 353 reply are appended to the channel's
accumulated list, or start it. -/
def handleNames (cu : String → Option (List String)) (channel users : String) :
    String → Option (List String) :=
  match cu channel with
  | some existing => fun ch => if ch == channel then some (existing ++ splitSp users) else cu ch
  | none => fun ch => if ch == channel then some (splitSp users) else cu ch

/-- Go `strings.TrimLeft(user, "@+%~&")`: strip leading IRC mode
markers (TUI file line 1615). -/
def cleanUser (u : String) : String :=
  String.mk (u.toList.dropWhile
    (fun c => c == '@' || c == '+' || c == '%' || c == '~' || c == '&'))

/-- The cleanup loop of `handleEndOfNames` (TUI file lines 1610-1620):
walk the users, strip mode markers, and keep a name when it is
non-empty and not yet in the `cleaned` set, in first-occurrence
order. -/
def cleanAcc : List String → List String → List String
  | _, [] => []
  | seen, u :: us =>
    if cleanUser u ≠ "" ∧ cleanUser u ∉ seen then
      cleanUser u :: cleanAcc (cleanUser u :: seen) us
    else cleanAcc seen us

/-- `handleEndOfNames` (TUI file lines 1605-1626): when the channel has
a recorded user list, replace it by its cleaned form; otherwise leave
the map unchanged. -/
def handleEndOfNames (cu : String → Option (List String)) (channel : String) :
    String → Option (List String) :=
  match cu channel with
  | some users => fun ch => if ch == channel then some (cleanAcc [] users) else cu ch
  | none => cu

/-- A connected Conn with nothing registered and a healthy transport. -/
def connEx : Conn :=
  { connected := true, quitClosed := false, doneClosed := false, connPresent := true,
    connClosed := false, debugSet := false, writeErr := none, flushErr := none,
    registry := [] }

/-- The state `Quit connEx "bye" true` produces. -/
def c1ex : Conn :=
  { connected := false, quitClosed := true, doneClosed := true, connPresent := true,
    connClosed := true, debugSet := false, writeErr := none, flushErr := none,
    registry := [] }

/-- A Conn that was never connected, with a debug hook installed. -/
def dcEx : Conn :=
  { connected := false, quitClosed := false, doneClosed := false, connPresent := false,
    connClosed := false, debugSet := true, writeErr := none, flushErr := none,
    registry := [] }

/-- Two handlers registered under the wildcard tag. -/
def cStar : Conn := { connEx with registry := [("*", 0), ("*", 1)] }

/-- A line whose parsed command is the wildcard tag itself. -/
def lStar : Line := { Nick := "", Src := "", Cmd := "*", Args := [] }

/-- One PRIVMSG handler and one wildcard handler. -/
def cPriv : Conn := { connEx with registry := [("PRIVMSG", 1), ("*", 9)] }

/-- A parsed PRIVMSG line. -/
def lPriv : Line := parseLine ":alice!u@h PRIVMSG #chan :hi"

/-- One PING handler and one wildcard handler. -/
def cPing : Conn := { connEx with registry := [("PING", 2), ("*", 3)] }

/-- A parsed PING line with a token. -/
def lPing : Line := parseLine "PING :server.example"

/-- A handler registered under the empty event tag. -/
def cEmptyTag : Conn := { connEx with registry := [("", 7)] }

/-- Only a wildcard handler. -/
def cWild : Conn := { connEx with registry := [("*", 3)] }

/-- A DISCONNECTED handler and a wildcard handler. -/
def cDisc : Conn := { connEx with registry := [("DISCONNECTED", 4), ("*", 5)] }

/-- The empty channelUsers map. -/
def noUsers : String → Option (List String) := fun _ => none

/-- A channelUsers map holding one 353 reply for #chan. -/
def cuEx : String → Option (List String) := handleNames noUsers "#chan" "@alice alice"

/-- splitChars never produces the empty list of fields. -/
theorem splitChars_ne_nil (cs : List Char) : splitChars cs ≠ [] := by
  induction cs with
  | nil => simp [splitChars]
  | cons c cs ih =>
    by_cases h : c = ' '
    · simp [splitChars, h]
    · simp only [splitChars, if_neg h]
      cases hs : splitChars cs with
      | nil => simp
      | cons t ts => simp

/-- splitSp never produces the empty list of fields. -/
theorem splitSp_ne_nil (s : String) : splitSp s ≠ [] := by
  unfold splitSp
  intro h
  exact splitChars_ne_nil s.toList (List.map_eq_nil_iff.mp h)

/-- The argument loop equals: take parameters while they do not start
with `:`, then, if a `:`-parameter exists, one trailing argument made of
the joined rest minus the leading colon. -/
theorem parseArgs_spec (ps : List String) :
    parseArgs ps
      = ps.takeWhile (fun p => !(strStarts p ':'))
        ++ (if (ps.dropWhile (fun p => !(strStarts p ':'))).isEmpty then []
            else [strDrop1 (joinSp (ps.dropWhile (fun p => !(strStarts p ':'))))]) := by
  induction ps with
  | nil => rfl
  | cons p ps ih =>
    by_cases h : strStarts p ':' = true
    · simp [parseArgs, h, List.takeWhile_cons, List.dropWhile_cons]
    · have h2 : strStarts p ':' = false := by
        cases hb : strStarts p ':' with
        | false => rfl
        | true => exact absurd hb h
      simp [parseArgs, h2, List.takeWhile_cons, List.dropWhile_cons, ih]

/-- The Args of any line are produced by the argument loop applied to
the space-split remainder minus its command token. -/
theorem parseCmdArgs_args (l : Line) (raw : String) :
    (parseCmdArgs l raw).Args = parseArgs (splitSp raw).tail := by
  unfold parseCmdArgs
  cases hs : splitSp raw with
  | nil => exact absurd hs (splitSp_ne_nil raw)
  | cons cmd rest => simp

/-- Claim C1: parsing `":nick!user@host PRIVMSG #chan :hello world"`
yields Nick "nick", Src "nick!user@host", Cmd "PRIVMSG" and Args
`["#chan", "hello world"]`; in general the argument loop takes
parameters left to right and the first parameter starting with `:`
absorbs the whole joined rest of the remainder, minus the leading
colon, as one final trailing argument, after which parsing stops. -/
theorem claim_C1 :
    parseLine ":nick!user@host PRIVMSG #chan :hello world"
        = { Nick := "nick", Src := "nick!user@host", Cmd := "PRIVMSG",
            Args := ["#chan", "hello world"] }
      ∧ (∀ ps : List String,
          parseArgs ps
            = ps.takeWhile (fun p => !(strStarts p ':'))
              ++ (if (ps.dropWhile (fun p => !(strStarts p ':'))).isEmpty then []
                  else [strDrop1 (joinSp (ps.dropWhile (fun p => !(strStarts p ':'))))]))
      ∧ (∀ (l : Line) (raw : String),
          (parseCmdArgs l raw).Args = parseArgs (splitSp raw).tail) :=
  ⟨by decide, parseArgs_spec, parseCmdArgs_args⟩

/-- writesOf distributes over trace concatenation. -/
theorem writesOf_append (xs ys : List Act) :
    writesOf (xs ++ ys) = writesOf xs ++ writesOf ys := by
  simp [writesOf, List.filterMap_append]

/-- spawnsOf distributes over trace concatenation. -/
theorem spawnsOf_append (xs ys : List Act) :
    spawnsOf (xs ++ ys) = spawnsOf xs ++ spawnsOf ys := by
  simp [spawnsOf, List.filterMap_append]

/-- The spawns of a pure spawn block are its handler list. -/
theorem spawnsOf_map_spawn (hs : List Nat) : spawnsOf (hs.map Act.spawn) = hs := by
  induction hs with
  | nil => rfl
  | cons x xs ih =>
    simp [spawnsOf, List.filterMap_cons] at ih ⊢
    exact ih

/-- sendRaw on a connected Conn with a healthy writer: no error, the
optional debug call, one write of the CRLF-terminated command, one
flush. -/
theorem sendRaw_ok (c : Conn) (cmd : String) (hc : c.connected = true)
    (hw : c.writeErr = none) (hf : c.flushErr = none) :
    sendRaw c cmd
      = (none, (if c.debugSet then [Act.debug cmd] else [])
          ++ [Act.write (cmd ++ crlf), Act.flush]) := by
  simp [sendRaw, hc, hw, hf]

/-- sendRaw spawns no handler. -/
theorem sendRaw_spawnsOf (c : Conn) (cmd : String) : spawnsOf (sendRaw c cmd).2 = [] := by
  unfold sendRaw
  by_cases h : c.connected = false <;>
    cases hw : c.writeErr <;> cases hf : c.flushErr <;>
      by_cases hd : c.debugSet <;>
        simp [h, hw, hf, hd, spawnsOf, List.filterMap_cons]

/-- sendRaw performs no lifecycle action. -/
theorem sendRaw_noLife (c : Conn) (cmd : String) : noLife (sendRaw c cmd).2 = true := by
  unfold sendRaw
  by_cases h : c.connected = false <;>
    cases hw : c.writeErr <;> cases hf : c.flushErr <;>
      by_cases hd : c.debugSet <;>
        simp [h, hw, hf, hd, noLife, isLifecycle]

/-- sendRaw on a healthy connected Conn writes exactly the one
CRLF-terminated command. -/
theorem writesOf_sendRaw_ok (c : Conn) (cmd : String) (hc : c.connected = true)
    (hw : c.writeErr = none) (hf : c.flushErr = none) :
    writesOf (sendRaw c cmd).2 = [cmd ++ crlf] := by
  rw [sendRaw_ok c cmd hc hw hf]
  by_cases hd : c.debugSet <;> simp [hd, writesOf, List.filterMap_cons]

/-- sendRaw attempts at most one write: there is no internal retry. -/
theorem writesOf_sendRaw_le (c : Conn) (cmd : String) :
    (writesOf (sendRaw c cmd).2).length ≤ 1 := by
  unfold sendRaw
  by_cases h : c.connected = false <;>
    cases hw : c.writeErr <;> cases hf : c.flushErr <;>
      by_cases hd : c.debugSet <;>
        simp [h, hw, hf, hd, writesOf, List.filterMap_cons]

/-- The PONG attempt spawns no handler. -/
theorem pongActs_spawnsOf (c : Conn) (l : Line) : spawnsOf (pongActs c l) = [] := by
  unfold pongActs
  cases hsr : sendRaw c (pongCmdOf l) with
  | mk err tr =>
    have h2 : spawnsOf tr = [] := by
      have h3 := sendRaw_spawnsOf c (pongCmdOf l)
      rw [hsr] at h3
      exact h3
    cases err with
    | none => exact h2
    | some e =>
      rw [spawnsOf_append, h2]
      rfl

/-- noLife distributes over trace concatenation. -/
theorem noLife_append (xs ys : List Act) :
    noLife (xs ++ ys) = (noLife xs && noLife ys) := by
  simp [noLife, List.all_append]

/-- The PONG attempt performs no lifecycle action. -/
theorem pongActs_noLife (c : Conn) (l : Line) : noLife (pongActs c l) = true := by
  unfold pongActs
  cases hsr : sendRaw c (pongCmdOf l) with
  | mk err tr =>
    have h2 : noLife tr = true := by
      have h3 := sendRaw_noLife c (pongCmdOf l)
      rw [hsr] at h3
      exact h3
    cases err with
    | none => exact h2
    | some e =>
      rw [noLife_append, h2]
      rfl

/-- The spawns of one dispatch are exactly the handlers registered
under the event followed by the handlers registered under the
wildcard. -/
theorem dispatch_spawnsOf (c : Conn) (e : String) (l : Line) :
    spawnsOf (dispatch c e l) = handlersFor c.registry e ++ handlersFor c.registry "*" := by
  unfold dispatch
  rw [spawnsOf_append, spawnsOf_append, spawnsOf_map_spawn, spawnsOf_map_spawn]
  by_cases he : (e == "PING") = true
  · rw [if_pos he, pongActs_spawnsOf]
    rfl
  · rw [if_neg he]
    rfl

/-- dispatch performs no lifecycle action. -/
theorem dispatch_noLife (c : Conn) (e : String) (l : Line) :
    noLife (dispatch c e l) = true := by
  unfold dispatch
  rw [noLife_append, noLife_append]
  have h1 : noLife (if e == "PING" then pongActs c l else []) = true := by
    by_cases he : (e == "PING") = true
    · rw [if_pos he]; exact pongActs_noLife c l
    · rw [if_neg he]; rfl
  have h2 : ∀ hs : List Nat, noLife (hs.map Act.spawn) = true := by
    intro hs
    simp [noLife, isLifecycle]
  rw [h1, h2, h2]
  rfl

/-- Claim C2: for a dispatched line whose Cmd is PING, the trace is the
PONG reply attempt followed by the handler spawns, so the reply — built
as `PONG :<arg0>` when the line has an argument and bare `PONG`
otherwise, CRLF-terminated, and written exactly once when the
connection and writer are healthy — precedes every handler invocation;
handlers are spawned whether or not the send succeeded. -/
theorem claim_C2 (c : Conn) (l : Line) (h : l.Cmd = "PING") :
    dispatch c l.Cmd l
        = pongActs c l
            ++ ((handlersFor c.registry "PING").map Act.spawn
              ++ (handlersFor c.registry "*").map Act.spawn)
      ∧ spawnsOf (pongActs c l) = []
      ∧ (l.Args = [] → pongCmdOf l = "PONG")
      ∧ (∀ a rest, l.Args = a :: rest → pongCmdOf l = "PONG :" ++ a)
      ∧ (c.connected = true → c.writeErr = none → c.flushErr = none →
          writesOf (pongActs c l) = [pongCmdOf l ++ crlf])
      ∧ spawnsOf (dispatch c l.Cmd l)
          = handlersFor c.registry "PING" ++ handlersFor c.registry "*" := by
  refine ⟨?_, pongActs_spawnsOf c l, ?_, ?_, ?_, ?_⟩
  · rw [h]
    simp [dispatch, List.append_assoc]
  · intro ha; simp [pongCmdOf, ha]
  · intro a rest ha; simp [pongCmdOf, ha]
  · intro hc hw hf
    unfold pongActs
    rw [sendRaw_ok c (pongCmdOf l) hc hw hf]
    by_cases hd : c.debugSet <;> simp [hd, writesOf, List.filterMap_cons]
  · rw [h]
    exact dispatch_spawnsOf c "PING" l

/-- Witness for C2 at a Conn with one PING and one wildcard handler and
the parsed line `"PING :server.example"`. -/
theorem claim_C2_witness :
    lPing.Cmd = "PING"
      ∧ (dispatch cPing lPing.Cmd lPing
            = pongActs cPing lPing
                ++ ((handlersFor cPing.registry "PING").map Act.spawn
                  ++ (handlersFor cPing.registry "*").map Act.spawn)
          ∧ spawnsOf (pongActs cPing lPing) = []
          ∧ (lPing.Args = [] → pongCmdOf lPing = "PONG")
          ∧ (∀ a rest, lPing.Args = a :: rest → pongCmdOf lPing = "PONG :" ++ a)
          ∧ (cPing.connected = true → cPing.writeErr = none → cPing.flushErr = none →
              writesOf (pongActs cPing lPing) = [pongCmdOf lPing ++ crlf])
          ∧ spawnsOf (dispatch cPing lPing.Cmd lPing)
              = handlersFor cPing.registry "PING" ++ handlersFor cPing.registry "*")
      ∧ writesOf (pongActs cPing lPing) = ["PONG :server.example" ++ crlf] :=
  ⟨by decide, claim_C2 cPing lPing (by decide), by decide⟩

/-- Claim C4 counterexample: with two handlers registered under the
wildcard tag — handler 0 playing the wildcard-handler role, handler 1
the one specific handler for the tag `"*"` — dispatching a line whose
Cmd is `"*"` spawns each of them twice, not exactly once as the claim
states for every tag including `"*"`. -/
theorem claim_C4_cex :
    spawnsOf (dispatch cStar "*" lStar) = [0, 1, 0, 1]
      ∧ (spawnsOf (dispatch cStar "*" lStar)).count 0 = 2 := by decide

/-- Claim C4 (amended): one dispatch spawns exactly the handlers
registered under the event tag followed by those registered under the
wildcard; hence for a tag other than `"*"`, a handler registered
exactly once under the tag and not under the wildcard runs exactly
once, and a handler registered exactly once under the wildcard and not
under the tag — in particular when the tag has no specific handlers at
all — runs exactly once; for the tag `"*"` itself every handler runs
twice as often as it is registered under the wildcard. -/
theorem claim_C4 :
    (∀ (c : Conn) (t : String) (l : Line),
        spawnsOf (dispatch c t l)
          = handlersFor c.registry t ++ handlersFor c.registry "*")
      ∧ (∀ (c : Conn) (t : String) (l : Line) (h : Nat), t ≠ "*" →
          (handlersFor c.registry t).count h = 1 →
          (handlersFor c.registry "*").count h = 0 →
          (spawnsOf (dispatch c t l)).count h = 1)
      ∧ (∀ (c : Conn) (t : String) (l : Line) (w : Nat),
          (handlersFor c.registry t).count w = 0 →
          (handlersFor c.registry "*").count w = 1 →
          (spawnsOf (dispatch c t l)).count w = 1)
      ∧ (∀ (c : Conn) (l : Line) (h : Nat),
          (spawnsOf (dispatch c "*" l)).count h
            = 2 * (handlersFor c.registry "*").count h) := by
  refine ⟨fun c t l => dispatch_spawnsOf c t l, ?_, ?_, ?_⟩
  · intro c t l h _ h1 h0
    rw [dispatch_spawnsOf, List.count_append, h1, h0]
  · intro c t l w h0 h1
    rw [dispatch_spawnsOf, List.count_append, h0, h1]
  · intro c l h
    rw [dispatch_spawnsOf, List.count_append]
    omega

/-- Witness for C4 at one PRIVMSG handler (id 1) plus one wildcard
handler (id 9): each runs exactly once for a dispatched PRIVMSG. -/
theorem claim_C4_witness :
    (spawnsOf (dispatch cPriv "PRIVMSG" lPriv)).count 1 = 1
      ∧ (spawnsOf (dispatch cPriv "PRIVMSG" lPriv)).count 9 = 1 :=
  ⟨claim_C4.2.1 cPriv "PRIVMSG" lPriv 1 (by decide) (by decide) (by decide),
   claim_C4.2.2.1 cPriv "PRIVMSG" lPriv 9 (by decide) (by decide)⟩

/-- Claim C6 counterexample: at a disconnected Conn the underlying
sendRaw fails with "not connected", but Raw, Join, Part and Privmsg —
whose Go originals have no return value — give their caller nothing but
the (empty) effect trace: the failure is not returned to the caller of
the command, contradicting the claim. -/
theorem claim_C6_cex :
    (sendRaw dcEx "TOPIC #lean").1 = some "not connected"
      ∧ Raw dcEx "TOPIC #lean" = []
      ∧ Join dcEx "#lean" = []
      ∧ Part dcEx "#lean" = []
      ∧ Privmsg dcEx "#lean" "hi" = [] := by decide

/-- Claim C6 (amended): each outbound command performs exactly one
sendRaw attempt with its documented wire command and discards the
error, returning nothing to its caller; the failure is reported
synchronously only by sendRaw itself (as its return value), and the
write is not retried — a sendRaw trace carries at most one write. -/
theorem claim_C6 (c : Conn) (cmd channel target message : String) :
    Raw c cmd = (sendRaw c cmd).2
      ∧ Join c channel = (sendRaw c ("JOIN " ++ channel)).2
      ∧ Part c channel = (sendRaw c ("PART " ++ channel)).2
      ∧ Privmsg c target message
          = (sendRaw c ("PRIVMSG " ++ target ++ " :" ++ message)).2
      ∧ (writesOf (sendRaw c cmd).2).length ≤ 1
      ∧ (c.connected = false → sendRaw c cmd = (some "not connected", [])) :=
  ⟨rfl, rfl, rfl, rfl, writesOf_sendRaw_le c cmd, fun h => by simp [sendRaw, h]⟩

/-- Witness for C6 at a disconnected Conn. -/
theorem claim_C6_witness :
    Raw dcEx "MODE #lean" = (sendRaw dcEx "MODE #lean").2
      ∧ sendRaw dcEx "MODE #lean" = (some "not connected", []) :=
  ⟨(claim_C6 dcEx "MODE #lean" "#lean" "#lean" "m").1,
   (claim_C6 dcEx "MODE #lean" "#lean" "#lean" "m").2.2.2.2.2 rfl⟩

/-- Claim C7: sendRaw on a Conn whose connected flag is down — whatever
the command and even with a debug hook installed — returns the
"not connected" error with an empty effect trace: no debug call, no
write, no flush. -/
theorem claim_C7 (c : Conn) (cmd : String) (h : c.connected = false) :
    sendRaw c cmd = (some "not connected", []) := by
  simp [sendRaw, h]

/-- Witness for C7 at a never-connected Conn with a debug hook
installed. -/
theorem claim_C7_witness :
    dcEx.connected = false
      ∧ sendRaw dcEx "JOIN #lean" = (some "not connected", []) :=
  ⟨rfl, claim_C7 dcEx "JOIN #lean" rfl⟩

/-- Claim C8 counterexample: the malformed line `":abc"` parses to an
empty Cmd, but with a handler registered under the empty event tag —
and no wildcard handler at all — dispatching that line spawns exactly
that non-wildcard handler, so the line is not observable only by
wildcard handlers. -/
theorem claim_C8_cex :
    (parseLine ":abc").Cmd = ""
      ∧ handlersFor cEmptyTag.registry "*" = []
      ∧ spawnsOf (dispatch cEmptyTag (parseLine ":abc").Cmd (parseLine ":abc")) = [7] := by
  decide

/-- Claim C8 (amended): parseLine is total by construction and
malformed input — here the colon-only-prefix line `":abc"` — degrades
to the Line with empty Cmd and no arguments; dispatching such a line
spawns exactly the handlers registered under the empty tag followed by
the wildcard handlers (and nothing else — no PONG, no write), so it is
observable only by wildcard handlers precisely when no handler is
registered under the empty tag. -/
theorem claim_C8 :
    parseLine ":abc" = { Nick := "", Src := "", Cmd := "", Args := [] }
      ∧ (∀ (c : Conn) (l : Line),
          dispatch c "" l
            = ((handlersFor c.registry "" ++ handlersFor c.registry "*").map Act.spawn))
      ∧ (∀ (c : Conn) (l : Line), handlersFor c.registry "" = [] →
          spawnsOf (dispatch c "" l) = handlersFor c.registry "*") := by
  refine ⟨by decide, ?_, ?_⟩
  · intro c l
    have hne : (("" : String) == "PING") = false := by decide
    simp [dispatch, hne, List.map_append]
  · intro c l h
    rw [dispatch_spawnsOf, h, List.nil_append]

/-- Witness for C8 at a Conn with only a wildcard handler. -/
theorem claim_C8_witness :
    handlersFor cWild.registry "" = []
      ∧ spawnsOf (dispatch cWild "" (parseLine ":abc")) = handlersFor cWild.registry "*" :=
  ⟨by decide, claim_C8.2.2 cWild (parseLine ":abc") (by decide)⟩

/-- The quit channel is closed after Quit's state transition. -/
theorem quitFinal_quitClosed (c : Conn) (d : Bool) :
    (quitFinal c d).quitClosed = true := by
  cases d <;> by_cases hp : c.connPresent = true <;>
    simp [quitFinal, quitWait, hp]

/-- The transport is closed after Quit when it was present. -/
theorem quitFinal_connClosed (c : Conn) (d : Bool) (hp : c.connPresent = true) :
    (quitFinal c d).connClosed = true := by
  cases d <;> simp [quitFinal, quitWait, hp]

/-- When the completion signal was observed, the connected flag is down
and the done channel closed after Quit. -/
theorem quitFinal_connected (c : Conn) :
    (quitFinal c true).connected = false ∧ (quitFinal c true).doneClosed = true := by
  by_cases hp : c.connPresent = true <;> simp [quitFinal, quitWait, hp]

/-- Claim C3 counterexample: a first Quit on a connected Conn returns —
sending `QUIT :bye`, closing the quit channel and the transport — but a
second Quit on the resulting Conn panics (close of a closed channel)
instead of returning, refuting the claim for repeated calls. -/
theorem claim_C3_cex :
    Quit connEx "bye" true
        = Except.ok (c1ex,
            [Act.write "QUIT :bye\r\n", Act.flush, Act.closeQuit, Act.closeConn])
      ∧ Quit c1ex "bye" true = Except.error GoPanic.closeOfClosedChannel :=
  ⟨rfl, rfl⟩

/-- Claim C3 (amended): on a Conn whose cancellation signal is not yet
raised, Quit returns (the bounded select always completes), after
sending `QUIT` — with a trailing `:<reason>` exactly when the reason is
non-empty, written once when the connection and writer are healthy —
then raising the cancellation signal, and it leaves the transport
closed whenever one was present; when the completion signal was
observed during the wait, Connected() is false afterward. A second
Quit on the same Conn panics instead of returning (see the
counterexample). -/
theorem claim_C3 (c : Conn) (msg : String) (d : Bool) (h : c.quitClosed = false) :
    Quit c msg d
        = Except.ok (quitFinal c d,
            (sendRaw c (quitCmd msg)).2 ++ [Act.closeQuit]
              ++ (if c.connPresent then [Act.closeConn] else []))
      ∧ (quitFinal c d).quitClosed = true
      ∧ (c.connPresent = true → (quitFinal c d).connClosed = true)
      ∧ (d = true → (quitFinal c d).connected = false ∧ (quitFinal c d).doneClosed = true)
      ∧ (msg = "" → quitCmd msg = "QUIT")
      ∧ (msg ≠ "" → quitCmd msg = "QUIT :" ++ msg)
      ∧ (c.connected = true → c.writeErr = none → c.flushErr = none →
          writesOf ((sendRaw c (quitCmd msg)).2 ++ [Act.closeQuit]
              ++ (if c.connPresent then [Act.closeConn] else []))
            = [quitCmd msg ++ crlf]) := by
  refine ⟨by simp [Quit, h], quitFinal_quitClosed c d,
    fun hp => quitFinal_connClosed c d hp,
    fun hd => by subst hd; exact quitFinal_connected c,
    fun hm => by simp [quitCmd, hm],
    fun hm => by simp [quitCmd, hm],
    ?_⟩
  intro hc hw hf
  rw [writesOf_append, writesOf_append, writesOf_sendRaw_ok c (quitCmd msg) hc hw hf]
  by_cases hp : c.connPresent = true <;> simp [hp, writesOf]

/-- Witness for C3: the first Quit on a fresh connected Conn with the
empty reason and the completion signal observed. -/
theorem claim_C3_witness :
    connEx.quitClosed = false
      ∧ Quit connEx "" true
          = Except.ok (quitFinal connEx true,
              (sendRaw connEx (quitCmd "")).2 ++ [Act.closeQuit]
                ++ (if connEx.connPresent then [Act.closeConn] else []))
      ∧ (quitFinal connEx true).connected = false
      ∧ (quitFinal connEx true).connClosed = true :=
  ⟨rfl, (claim_C3 connEx "" true rfl).1,
   ((claim_C3 connEx "" true rfl).2.2.2.1 rfl).1,
   (claim_C3 connEx "" true rfl).2.2.1 rfl⟩

/-- Whenever the read loop exits, its trace is the actions of the
processed lines — which contain no lifecycle action — followed by the
exit sequence. -/
theorem readLoop_exit (c : Conn) :
    ∀ evs : List ReadEv, (readLoop c evs).2 = true →
      ∃ pre, (readLoop c evs).1 = pre ++ exitActs c ∧ noLife pre = true := by
  intro evs
  induction evs with
  | nil => intro hx; exact absurd hx (by simp [readLoop])
  | cons ev evs ih =>
    intro hx
    cases ev with
    | quitObserved => exact ⟨[], rfl, rfl⟩
    | readErr => exact ⟨[], rfl, rfl⟩
    | timeout => exact ih hx
    | lineOk s =>
      by_cases ht : (goTrimSpace s == "") = true
      · have he : readLoop c (ReadEv.lineOk s :: evs) = readLoop c evs := by
          simp [readLoop, ht]
        rw [he] at hx ⊢
        exact ih hx
      · have he : readLoop c (ReadEv.lineOk s :: evs)
            = (dispatch c (parseLine (goTrimSpace s)).Cmd (parseLine (goTrimSpace s))
                ++ (readLoop c evs).1, (readLoop c evs).2) := by
          simp [readLoop, ht]
        rw [he] at hx ⊢
        obtain ⟨pre, hp, hn⟩ := ih hx
        refine ⟨dispatch c (parseLine (goTrimSpace s)).Cmd (parseLine (goTrimSpace s))
          ++ pre, ?_, ?_⟩
        · simp [hp, List.append_assoc]
        · rw [noLife_append, hn, dispatch_noLife]
          rfl

/-- Claim C5: whenever the read loop exits, for any cause (observed
cancellation or terminal read error), everything it did before exiting
contains no lifecycle action, and the exit suffix is, in this order:
clear the connected flag, dispatch the synthetic DISCONNECTED line
through the normal dispatch path (so DISCONNECTED and wildcard handlers
see it), and only then close the done channel. -/
theorem claim_C5 (c : Conn) (evs : List ReadEv) (hx : (readLoop c evs).2 = true) :
    ∃ pre, (readLoop c evs).1 = pre ++ exitActs c
      ∧ noLife pre = true
      ∧ exitActs c
          = Act.setConnected false
              :: (dispatch { c with connected := false } "DISCONNECTED" dcLine
                ++ [Act.closeDone]) := by
  obtain ⟨pre, h1, h2⟩ := readLoop_exit c evs hx
  exact ⟨pre, h1, h2, rfl⟩

/-- Witness for C5: a Conn with a DISCONNECTED handler and a wildcard
handler whose read fails terminally at once. -/
theorem claim_C5_witness :
    (readLoop cDisc [ReadEv.readErr]).2 = true
      ∧ (∃ pre, (readLoop cDisc [ReadEv.readErr]).1 = pre ++ exitActs cDisc
          ∧ noLife pre = true
          ∧ exitActs cDisc
              = Act.setConnected false
                  :: (dispatch { cDisc with connected := false } "DISCONNECTED" dcLine
                    ++ [Act.closeDone])) :=
  ⟨by decide, claim_C5 cDisc [ReadEv.readErr] (by decide)⟩

/-- A 353 reply appends its space-split users to the channel's
accumulated list (starting from nothing when absent). -/
theorem handleNames_acc (cu : String → Option (List String)) (ch us : String) :
    (handleNames cu ch us) ch = some ((cu ch).getD [] ++ splitSp us) := by
  cases hc : cu ch with
  | none => simp [handleNames, hc]
  | some ex => simp [handleNames, hc]

/-- Claim C9: from no recorded users, two 353 events for #chan carrying
"alice bob" then "carol" followed by one 366 event leave #chan's user
list at ["alice", "bob", "carol"]; 353 events accumulate across
messages, and the 366 cleanup strips leading @ + % ~ & markers and
drops duplicates and empties, as the added concrete cleanup run
shows. -/
theorem claim_C9 :
    handleEndOfNames
        (handleNames (handleNames noUsers "#chan" "alice bob") "#chan" "carol")
        "#chan" "#chan"
      = some ["alice", "bob", "carol"]
      ∧ (∀ (cu : String → Option (List String)) (ch us : String),
          (handleNames cu ch us) ch = some ((cu ch).getD [] ++ splitSp us))
      ∧ cleanAcc [] ["@alice", "+bob", "alice", "", "bob", "carol"]
          = ["alice", "bob", "carol"] :=
  ⟨by decide, handleNames_acc, by decide⟩

/-- The underlying character list of a packed string. -/
theorem mkToList (l : List Char) : (String.mk l).toList = l := rfl

/-- Stripping mode markers twice is stripping them once. -/
theorem cleanUser_idem (u : String) : cleanUser (cleanUser u) = cleanUser u := by
  unfold cleanUser
  rw [mkToList, List.dropWhile_idempotent]

/-- Every name the cleanup emits is already stripped, non-empty, and
not in the seen set it started from. -/
theorem cleanAcc_mem : ∀ (l seen : List String) (u : String),
    u ∈ cleanAcc seen l → cleanUser u = u ∧ u ≠ "" ∧ u ∉ seen := by
  intro l
  induction l with
  | nil =>
    intro seen u h
    simp [cleanAcc] at h
  | cons v l ih =>
    intro seen u h
    simp only [cleanAcc] at h
    by_cases hc : cleanUser v ≠ "" ∧ cleanUser v ∉ seen
    · rw [if_pos hc] at h
      rcases List.mem_cons.mp h with h1 | h1
      · subst h1
        exact ⟨cleanUser_idem v, hc.1, hc.2⟩
      · obtain ⟨p1, p2, p3⟩ := ih (cleanUser v :: seen) u h1
        exact ⟨p1, p2, fun hs => p3 (List.mem_cons_of_mem _ hs)⟩
    · rw [if_neg hc] at h
      exact ih seen u h

/-- The cleanup emits no duplicates. -/
theorem cleanAcc_nodup : ∀ (l seen : List String), (cleanAcc seen l).Nodup := by
  intro l
  induction l with
  | nil => intro seen; simp [cleanAcc]
  | cons v l ih =>
    intro seen
    simp only [cleanAcc]
    by_cases hc : cleanUser v ≠ "" ∧ cleanUser v ∉ seen
    · rw [if_pos hc]
      refine List.nodup_cons.mpr ⟨?_, ih _⟩
      intro hmem
      exact (cleanAcc_mem l _ _ hmem).2.2 (List.mem_cons_self _ _)
    · rw [if_neg hc]
      exact ih seen

/-- On an already clean, duplicate-free list disjoint from the seen
set, the cleanup is the identity. -/
theorem cleanAcc_fixed : ∀ (l seen : List String),
    (∀ u ∈ l, cleanUser u = u ∧ u ≠ "") → l.Nodup → (∀ u ∈ l, u ∉ seen) →
    cleanAcc seen l = l := by
  intro l
  induction l with
  | nil => intro seen _ _ _; rfl
  | cons v l ih =>
    intro seen hcl hnd hdisj
    obtain ⟨hv1, hv2⟩ := hcl v (List.mem_cons_self v l)
    have hvl : v ∉ l := (List.nodup_cons.mp hnd).1
    simp only [cleanAcc]
    rw [hv1, if_pos ⟨hv2, hdisj v (List.mem_cons_self v l)⟩]
    rw [ih (v :: seen)
      (fun u hu => hcl u (List.mem_cons_of_mem _ hu))
      (List.nodup_cons.mp hnd).2
      (fun u hu => by
        intro hs
        rcases List.mem_cons.mp hs with h1 | h1
        · exact hvl (h1 ▸ hu)
        · exact hdisj u (List.mem_cons_of_mem _ hu) h1)]

/-- The cleanup loop is idempotent. -/
theorem cleanAcc_idem (l : List String) :
    cleanAcc [] (cleanAcc [] l) = cleanAcc [] l :=
  cleanAcc_fixed (cleanAcc [] l) []
    (fun u hu => ⟨(cleanAcc_mem l [] u hu).1, (cleanAcc_mem l [] u hu).2.1⟩)
    (cleanAcc_nodup l [])
    (fun u _ => List.not_mem_nil u)

/-- handleEndOfNames on a channel with no recorded users is the
identity. -/
theorem heonApp_none (cu : String → Option (List String)) (ch : String)
    (hc : cu ch = none) : handleEndOfNames cu ch = cu := by
  unfold handleEndOfNames
  rw [hc]

/-- handleEndOfNames on a channel with recorded users replaces exactly
that channel's list by its cleaned form. -/
theorem heonApp_some (cu : String → Option (List String)) (ch : String)
    (users : List String) (hc : cu ch = some users) :
    handleEndOfNames cu ch
      = fun ch2 => if ch2 == ch then some (cleanAcc [] users) else cu ch2 := by
  unfold handleEndOfNames
  rw [hc]

/-- Applying the 366 cleanup twice to a channel leaves the same map as
applying it once. -/
theorem handleEndOfNames_idem (cu : String → Option (List String)) (ch : String) :
    handleEndOfNames (handleEndOfNames cu ch) ch = handleEndOfNames cu ch := by
  cases hc : cu ch with
  | none =>
    rw [heonApp_none cu ch hc]
    exact heonApp_none cu ch hc
  | some users =>
    have h1 := heonApp_some cu ch users hc
    have h2 : (handleEndOfNames cu ch) ch = some (cleanAcc [] users) := by
      rw [h1]; simp
    have h3 := heonApp_some (handleEndOfNames cu ch) ch (cleanAcc [] users) h2
    rw [h3, h1]
    funext ch2
    by_cases he : (ch2 == ch) = true <;> simp [he, cleanAcc_idem]

/-- Claim C10: the end-of-names cleanup is idempotent — on the
channelUsers map, applying handleEndOfNames to the same channel twice
equals applying it once, because one cleanup pass leaves a list whose
entries carry no leading @ + % ~ & markers, are non-empty, and are
pairwise distinct, on which a second pass is the identity. -/
theorem claim_C10 :
    (∀ (cu : String → Option (List String)) (ch : String),
        handleEndOfNames (handleEndOfNames cu ch) ch = handleEndOfNames cu ch)
      ∧ (∀ l : List String, cleanAcc [] (cleanAcc [] l) = cleanAcc [] l)
      ∧ (∀ (l : List String) (u : String),
          u ∈ cleanAcc [] l → cleanUser u = u ∧ u ≠ "")
      ∧ (∀ l : List String, (cleanAcc [] l).Nodup) :=
  ⟨handleEndOfNames_idem, cleanAcc_idem,
   fun l u h => ⟨(cleanAcc_mem l [] u h).1, (cleanAcc_mem l [] u h).2.1⟩,
   fun l => cleanAcc_nodup l []⟩

/-- Witness for C10 at a map holding one 353 reply for #chan. -/
theorem claim_C10_witness :
    handleEndOfNames (handleEndOfNames cuEx "#chan") "#chan"
        = handleEndOfNames cuEx "#chan"
      ∧ (cleanUser "alice" = "alice" ∧ "alice" ≠ "") :=
  ⟨claim_C10.1 cuEx "#chan", claim_C10.2.2.1 ["@alice"] "alice" (by decide)⟩

end Irc
